import Mathlib

/-!
Shallow embedding of `src/Struct.js` (ohgyun/struct-js).

The JS `ArrayBuffer`/`DataView` pair is modelled as a byte store:
`byteLength` mirrors `ArrayBuffer.byteLength`, and `data` gives the byte at
each index.  `DataView.prototype.setUint8` stores `ToUint8(value)`, i.e. the
value modulo 256, and the multi-byte writes and reads compose bytes exactly
the way `DataView` does for the chosen endianness.  `DataView` range checks
are not modelled; every access performed by the claims below lies inside the
buffer.

JS strings are modelled as their lists of UTF-16 code units (`List Nat`):
`value.charCodeAt(i)` is list indexing and `String.fromCharCode(c)` is
consing the code unit.  Field descriptors stay Lean `String`s, and the
anchored regex `(uint8|uint16|uint32|cstring) (\w+)(?:\[(\d+)\])?` is
embedded as an explicit character-list matcher (`matchDef`).
-/

namespace StructJs

/-- The byte store behind `ArrayBuffer` + `DataView`. -/
structure ArrayBuffer where
  byteLength : Nat
  data : Nat → Nat

/-- `new ArrayBuffer(n)`: a fresh zero-initialized buffer. -/
def ArrayBuffer.new (n : Nat) : ArrayBuffer := ⟨n, fun _ => 0⟩

/-- `DataView.prototype.setUint8(off, v)` stores `ToUint8(v) = v mod 256`. -/
def ArrayBuffer.setUint8 (b : ArrayBuffer) (off v : Nat) : ArrayBuffer :=
  { b with data := fun i => if i = off then v % 256 else b.data i }

/-- `DataView.prototype.getUint8(off)`; an `ArrayBuffer` byte is in 0..255,
which the model realises by reducing the stored cell modulo 256. -/
def ArrayBuffer.getUint8 (b : ArrayBuffer) (off : Nat) : Nat :=
  b.data off % 256

/-- `DataView.prototype.setUint16(off, v, littleEndian)`: the two bytes of
`ToUint16(v)` in the requested order. -/
def ArrayBuffer.setUint16 (b : ArrayBuffer) (off v : Nat) (le : Bool) : ArrayBuffer :=
  if le then (b.setUint8 off v).setUint8 (off + 1) (v / 256)
  else (b.setUint8 off (v / 256)).setUint8 (off + 1) v

/-- `DataView.prototype.getUint16(off, littleEndian)`. -/
def ArrayBuffer.getUint16 (b : ArrayBuffer) (off : Nat) (le : Bool) : Nat :=
  if le then b.getUint8 off + 256 * b.getUint8 (off + 1)
  else 256 * b.getUint8 off + b.getUint8 (off + 1)

/-- `DataView.prototype.setUint32(off, v, littleEndian)`: the four bytes of
`ToUint32(v)` in the requested order. -/
def ArrayBuffer.setUint32 (b : ArrayBuffer) (off v : Nat) (le : Bool) : ArrayBuffer :=
  if le then
    ((((b.setUint8 off v).setUint8 (off + 1) (v / 256)).setUint8
        (off + 2) (v / 65536)).setUint8 (off + 3) (v / 16777216))
  else
    ((((b.setUint8 off (v / 16777216)).setUint8 (off + 1) (v / 65536)).setUint8
        (off + 2) (v / 256)).setUint8 (off + 3) v)

/-- `DataView.prototype.getUint32(off, littleEndian)`. -/
def ArrayBuffer.getUint32 (b : ArrayBuffer) (off : Nat) (le : Bool) : Nat :=
  if le then
    b.getUint8 off + 256 * b.getUint8 (off + 1) + 65536 * b.getUint8 (off + 2)
      + 16777216 * b.getUint8 (off + 3)
  else
    16777216 * b.getUint8 off + 65536 * b.getUint8 (off + 1)
      + 256 * b.getUint8 (off + 2) + b.getUint8 (off + 3)

/-- JS `\w` (the source regex has no `u` flag, so it is ASCII):
`[A-Za-z0-9_]`. -/
def isWordChar (c : Char) : Bool := c.isAlphanum || c == '_'

/-- Strip an expected leading character sequence, returning the remainder of
the input when it is present. -/
def dropLead : List Char → List Char → Option (List Char)
  | [], s => some s
  | _ :: _, [] => none
  | p :: ps, c :: cs => if c == p then dropLead ps cs else none

/-- Match `^ty (\w+)(?:\[(\d+)\])?$` against the character list `cs` for one
fixed alternative `ty` of the type alternation of `rDef`
(`/^(uint8|uint16|uint32|cstring) (\w+)(?:\[(\d+)\])?$/`).  Returns the
captures: the type, the name, and the optional count digits. -/
def matchTail (ty : String) (cs : List Char) :
    Option (String × String × Option (List Char)) :=
  match dropLead (ty.toList ++ [' ']) cs with
  | none => none
  | some rest =>
    let name := rest.takeWhile isWordChar
    let tail := rest.dropWhile isWordChar
    if name.isEmpty then none
    else
      match tail with
      | [] => some (ty, String.mk name, none)
      | '[' :: t2 =>
        let ds := t2.takeWhile Char.isDigit
        let t3 := t2.dropWhile Char.isDigit
        if ds.isEmpty then none
        else
          match t3 with
          | [']'] => some (ty, String.mk name, some ds)
          | _ => none
      | _ => none

/-- `rDef.test(def)` together with the captures `RegExp.$1`, `RegExp.$2`,
`RegExp.$3`: the four type alternatives are mutually non-prefix, so the
regex match is this deterministic first-fit. -/
def matchDef (s : String) : Option (String × String × Option (List Char)) :=
  match matchTail "uint8" s.toList with
  | some r => some r
  | none =>
    match matchTail "uint16" s.toList with
    | some r => some r
    | none =>
      match matchTail "uint32" s.toList with
      | some r => some r
      | none => matchTail "cstring" s.toList

/-- Value of a nonempty decimal digit string, as `parseInt(ds, 10)` computes
it for a `\d+` capture. -/
def digitsToNat (ds : List Char) : Nat :=
  ds.foldl (fun a c => 10 * a + (c.toNat - 48)) 0

/-- JS `x || 1` for the number `x = parseInt(...)`: `0` (and `NaN`) are
falsy and give `1`. -/
def jsOr1 (n : Nat) : Nat := if n = 0 then 1 else n

/-- `parseInt(RegExp.$3, 10) || 1`: a missing capture is the empty string,
whose `parseInt` is `NaN`, hence `1`; a captured `0` is falsy, hence `1`. -/
def countOf : Option (List Char) → Nat
  | none => 1
  | some ds => jsOr1 (digitsToNat ds)

/-- `Struct._typeMap[type].byteSize`. -/
def byteSizeOf : String → Nat
  | "uint8" => 1
  | "uint16" => 2
  | "uint32" => 4
  | "cstring" => 1
  | _ => 0

/-- One compiled layout entry, as stored in `this._defMap[name]`. -/
structure FieldDef where
  type : String
  offset : Nat
  length : Nat
deriving DecidableEq, Repr

/-- Bytes occupied by one entry: `length * byteSize`. -/
def footprint (d : FieldDef) : Nat := d.length * byteSizeOf d.type

/-- Sum of the footprints of a list of named entries. -/
def sumFp (es : List (String × FieldDef)) : Nat :=
  (es.map fun e => footprint e.2).sum

/-- `Struct.prototype._parseDefs`, with the running `totalBytes` as the
accumulator.  Returns the entries in declaration order together with the
final total; the first non-matching descriptor aborts with
`'Invalid Struct Definition: ' + def`. -/
def parseDefs : List String → Nat → Except String (List (String × FieldDef) × Nat)
  | [], total => .ok ([], total)
  | d :: ds, total =>
    match matchDef d with
    | some (ty, name, cnt) =>
      let byteSize := byteSizeOf ty
      let length := countOf cnt
      match parseDefs ds (total + length * byteSize) with
      | .ok (entries, t) =>
        .ok ((name, { type := ty, offset := total, length := length }) :: entries, t)
      | .error e => .error e
    | none => .error ("Invalid Struct Definition: " ++ d)

/-- A bound record instance.  `defMap` keeps the insertion order of the JS
object `this._defMap`; a lookup takes the last binding of a name, as JS
property assignment does. -/
structure Struct where
  defMap : List (String × FieldDef)
  buffer : ArrayBuffer
  littleEndian : Bool

/-- Last binding of `name` in the insertion-ordered map. -/
def lookupLast : List (String × FieldDef) → String → Option FieldDef
  | [], _ => none
  | (n, d) :: rest, name =>
    match lookupLast rest name with
    | some d2 => some d2
    | none => if n == name then some d else none

/-- The constructor `new Struct(defs, buffer, isLittleEndian)`:
`_parseDefs` first (a malformed descriptor throws before any buffer is
bound), then `this._buffer = buffer || new ArrayBuffer(totalBytes)` (an
`ArrayBuffer` object is always truthy), then `this.LITTE_ENDIAN =
isLittleEndian` — an absent argument is `undefined`, which every `DataView`
call coerces to `false`, modelled by `Option.getD false`. -/
def Struct.make (defs : List String) (buffer : Option ArrayBuffer)
    (isLittleEndian : Option Bool) : Except String Struct :=
  match parseDefs defs 0 with
  | .error e => .error e
  | .ok (entries, totalBytes) =>
    .ok { defMap := entries
          buffer := buffer.getD (ArrayBuffer.new totalBytes)
          littleEndian := isLittleEndian.getD false }

/-- `Struct.prototype._getDefByName`: throws
`name + 'does not defined'` (sic, no space) when the name is unbound. -/
def Struct.getDefByName (s : Struct) (name : String) : Except String FieldDef :=
  match lookupLast s.defMap name with
  | some d => .ok d
  | none => .error (name ++ "does not defined")

/-- `Struct.prototype.getLength`: `this._buffer.byteLength` — the length of
the backing buffer, not the compiled `totalBytes`. -/
def Struct.getLength (s : Struct) : Nat := s.buffer.byteLength

/-- A JS value passed to `set` or returned by `get`: a number or a string
(as its code units). -/
inductive Value where
  | num : Nat → Value
  | str : List Nat → Value
deriving DecidableEq, Repr

/-- The numeric argument a `DataView` setter sees after `ToNumber`: a number
is itself; for a string, JS parses it — plain decimal strings give their
value and other strings give `NaN`, which `ToUintN` maps to `0` (the other
`ToNumber` forms — signs, whitespace, hex, fractions — are not exercised by
any claim). -/
def Value.toNumArg : Value → Nat
  | .num n => n
  | .str cs =>
    if cs ≠ [] && cs.all (fun c => 48 ≤ c && c ≤ 57) then
      cs.foldl (fun a c => 10 * a + (c - 48)) 0
    else 0

/-- The string content the cstring setter sees: for a number, `value.length`
is `undefined`, `Math.min(undefined, k)` is `NaN`, the content loop does not
run and only the terminator is written — exactly the behaviour of the empty
content list. -/
def Value.strData : Value → List Nat
  | .str cs => cs
  | .num _ => []

/-- Write a list of content bytes at consecutive offsets
(the `for` loop of the cstring setter). -/
def writeBytes (b : ArrayBuffer) (off : Nat) : List Nat → ArrayBuffer
  | [] => b
  | c :: cs => writeBytes (b.setUint8 off c) (off + 1) cs

/-- `Struct._typeMap['cstring'].setter`: write
`min(value.length, length - 1)` character codes from `offset`, then a
single zero byte right after them. -/
def cstringSet (b : ArrayBuffer) (value : List Nat) (offset length : Nat) :
    ArrayBuffer :=
  let len := min value.length (length - 1)
  (writeBytes b offset (value.take len)).setUint8 (offset + len) 0

/-- `Struct._typeMap['cstring'].getter`: read up to `length` bytes from
`offset`, stopping (exclusively) at the first zero byte. -/
def cstringGet (b : ArrayBuffer) (offset : Nat) : Nat → List Nat
  | 0 => []
  | n + 1 =>
    let c := b.getUint8 offset
    if c = 0 then [] else c :: cstringGet b (offset + 1) n

/-- `Struct.prototype.set`: look the field up, then dispatch on its type
through `Struct._typeMap` (the table lookup is this closed if-chain; a type
outside the table would make JS call `undefined`, modelled as an error). -/
def Struct.set (s : Struct) (name : String) (value : Value) : Except String Struct :=
  match s.getDefByName name with
  | .error e => .error e
  | .ok d =>
    if d.type = "uint8" then
      .ok { s with buffer := s.buffer.setUint8 d.offset value.toNumArg }
    else if d.type = "uint16" then
      .ok { s with buffer := s.buffer.setUint16 d.offset value.toNumArg s.littleEndian }
    else if d.type = "uint32" then
      .ok { s with buffer := s.buffer.setUint32 d.offset value.toNumArg s.littleEndian }
    else if d.type = "cstring" then
      .ok { s with buffer := cstringSet s.buffer value.strData d.offset d.length }
    else .error ("Struct._typeMap has no entry for " ++ d.type)

/-- `Struct.prototype.get`: look the field up, then dispatch on its type. -/
def Struct.get (s : Struct) (name : String) : Except String Value :=
  match s.getDefByName name with
  | .error e => .error e
  | .ok d =>
    if d.type = "uint8" then .ok (.num (s.buffer.getUint8 d.offset))
    else if d.type = "uint16" then
      .ok (.num (s.buffer.getUint16 d.offset s.littleEndian))
    else if d.type = "uint32" then
      .ok (.num (s.buffer.getUint32 d.offset s.littleEndian))
    else if d.type = "cstring" then
      .ok (.str (cstringGet s.buffer d.offset d.length))
    else .error ("Struct._typeMap has no entry for " ++ d.type)

/-- The byte values `Struct.prototype.eachByte` visits, in visiting order:
`getUint8(i)` for `i = 0 .. getLength() - 1`. -/
def Struct.byteValues (s : Struct) : List Nat :=
  (List.range s.getLength).map fun i => s.buffer.getUint8 i

/-- `Struct.prototype._padZero(str, count)`: prepend zeros up to `count`
characters (never called with a longer input in the source). -/
def padZero (str : String) (count : Nat) : String :=
  String.mk (List.replicate (count - str.length) '0') ++ str

/-- JS `v.toString(radix)` for a natural number: its base-`radix` digits,
lowercase. -/
def natToDigits (radix n : Nat) : String := String.mk (Nat.toDigits radix n)

/-- `Struct._toStringMap['hex']`: fold `str += _padZero(v.toString(16), 2)`
over the bytes. -/
def Struct.hexString (s : Struct) : String :=
  s.byteValues.foldl (fun str v => str ++ padZero (natToDigits 16 v) 2) ""

/-- `Struct._toStringMap['binary']`: fold `str += _padZero(v.toString(2), 8)`
over the bytes. -/
def Struct.binaryString (s : Struct) : String :=
  s.byteValues.foldl (fun str v => str ++ padZero (natToDigits 2 v) 8) ""

/-- `Struct.prototype.toString(type)`: `type = type || 'hex'` (an absent
argument and the empty string are both falsy), then dispatch through
`Struct._toStringMap`; a missing table entry makes JS call `undefined`,
which throws a `TypeError`, modelled as an error result. -/
def Struct.toString (s : Struct) (mode : Option String) : Except String String :=
  let t := match mode with
    | none => "hex"
    | some m => if m = "" then "hex" else m
  if t = "hex" then .ok s.hexString
  else if t = "binary" then .ok s.binaryString
  else .error ("Struct._toStringMap[" ++ t ++ "] is not a function")

/-- Code units of a Lean string literal, for concrete JS string values in
examples (all our literals are ASCII, where code unit = code point). -/
def strCodes (s : String) : List Nat := s.toList.map Char.toNat

/-! ### Byte-store lemmas -/

theorem setUint8_data_self (b : ArrayBuffer) (off v : Nat) :
    (b.setUint8 off v).data off = v % 256 := by
  simp [ArrayBuffer.setUint8]

theorem setUint8_data_ne (b : ArrayBuffer) (off v j : Nat) (h : j ≠ off) :
    (b.setUint8 off v).data j = b.data j := by
  simp [ArrayBuffer.setUint8, h]

theorem getUint8_lt (b : ArrayBuffer) (off : Nat) : b.getUint8 off < 256 :=
  Nat.mod_lt _ (by omega)

theorem getUint8_setUint8_self (b : ArrayBuffer) (off v : Nat) :
    (b.setUint8 off v).getUint8 off = v % 256 := by
  simp [ArrayBuffer.getUint8, setUint8_data_self]

theorem getUint8_setUint8_ne (b : ArrayBuffer) (off v j : Nat) (h : j ≠ off) :
    (b.setUint8 off v).getUint8 j = b.getUint8 j := by
  simp [ArrayBuffer.getUint8, setUint8_data_ne _ _ _ _ h]

theorem getUint16_setUint16 (b : ArrayBuffer) (off v : Nat) (le : Bool)
    (hv : v < 65536) : (b.setUint16 off v le).getUint16 off le = v := by
  cases le <;>
    simp [ArrayBuffer.setUint16, ArrayBuffer.getUint16,
      getUint8_setUint8_self, getUint8_setUint8_ne, setUint8_data_self,
      setUint8_data_ne, ArrayBuffer.getUint8, ArrayBuffer.setUint8] <;>
    omega

theorem getUint32_setUint32 (b : ArrayBuffer) (off v : Nat) (le : Bool)
    (hv : v < 4294967296) : (b.setUint32 off v le).getUint32 off le = v := by
  cases le <;>
    simp [ArrayBuffer.setUint32, ArrayBuffer.getUint32,
      ArrayBuffer.getUint8, ArrayBuffer.setUint8] <;>
    omega

/-! ### Layout-compiler lemmas -/

theorem sumFp_nil : sumFp [] = 0 := rfl

theorem sumFp_cons (n : String) (d : FieldDef) (es : List (String × FieldDef)) :
    sumFp ((n, d) :: es) = footprint d + sumFp es := by
  simp [sumFp]

/-- The accumulator-passing recursion of `_parseDefs`: the final total is the
accumulator plus all footprints, and every entry's offset is the accumulator
plus the footprints of the earlier entries. -/
theorem parseDefs_spec (defs : List String) :
    ∀ (acc : Nat) (es : List (String × FieldDef)) (t : Nat),
      parseDefs defs acc = .ok (es, t) →
      t = acc + sumFp es ∧
        ∀ i (hi : i < es.length),
          (es.get ⟨i, hi⟩).2.offset = acc + sumFp (es.take i) := by
  induction defs with
  | nil =>
    intro acc es t h
    simp only [parseDefs, Except.ok.injEq, Prod.mk.injEq] at h
    obtain ⟨h1, h2⟩ := h
    subst h1; subst h2
    simp [sumFp]
  | cons d ds ih =>
    intro acc es t h
    simp only [parseDefs] at h
    cases hm : matchDef d with
    | none => rw [hm] at h; cases h
    | some r =>
      obtain ⟨ty, name, cnt⟩ := r
      rw [hm] at h
      simp only at h
      cases hp : parseDefs ds (acc + countOf cnt * byteSizeOf ty) with
      | error e => rw [hp] at h; cases h
      | ok p =>
        obtain ⟨es', t'⟩ := p
        rw [hp] at h
        simp only [Except.ok.injEq, Prod.mk.injEq] at h
        obtain ⟨h1, h2⟩ := h
        subst h2
        obtain ⟨iht, ihoff⟩ := ih _ _ _ hp
        subst h1
        constructor
        · rw [iht, sumFp_cons]
          simp [footprint]
          omega
        · intro i hi
          match i with
          | 0 => simp [sumFp]
          | Nat.succ j =>
            have hj : j < es'.length := by
              simpa using Nat.lt_of_succ_lt_succ hi
            have := ihoff j hj
            simp only [List.get_cons_succ, List.take_succ_cons, sumFp_cons, this,
              footprint]
            omega

/-- Every result of `matchTail ty cs` carries `ty` as its type capture. -/
theorem matchTail_type (ty : String) (cs : List Char)
    (r : String × String × Option (List Char)) (h : matchTail ty cs = some r) :
    r.1 = ty := by
  unfold matchTail at h
  split at h
  · cases h
  · simp only at h
    split at h
    · cases h
    · split at h
      · cases h; rfl
      · split at h
        · cases h
        · split at h
          · cases h; rfl
          · cases h
      · cases h

/-- A successful regex match always captures one of the four table types,
whose per-unit byte size is at least one. -/
theorem matchDef_byteSize_pos (s ty name : String) (cnt : Option (List Char))
    (h : matchDef s = some (ty, name, cnt)) : 1 ≤ byteSizeOf ty := by
  unfold matchDef at h
  split at h
  case _ r hr =>
    cases h
    have := matchTail_type _ _ _ hr
    simp only at this
    subst this
    decide
  case _ =>
    split at h
    case _ r hr =>
      cases h
      have := matchTail_type _ _ _ hr
      simp only at this
      subst this
      decide
    case _ =>
      split at h
      case _ r hr =>
        cases h
        have := matchTail_type _ _ _ hr
        simp only at this
        subst this
        decide
      case _ =>
        have := matchTail_type _ _ _ h
        simp only at this
        subst this
        decide

theorem countOf_pos (c : Option (List Char)) : 1 ≤ countOf c := by
  cases c
  · simp [countOf]
  · simp only [countOf, jsOr1]
    split <;> omega

/-- Every entry produced by a successful parse occupies at least one byte. -/
theorem parseDefs_footprint_pos (defs : List String) :
    ∀ (acc : Nat) (es : List (String × FieldDef)) (t : Nat),
      parseDefs defs acc = .ok (es, t) →
      ∀ e ∈ es, 1 ≤ footprint e.2 := by
  induction defs with
  | nil =>
    intro acc es t h
    simp only [parseDefs, Except.ok.injEq, Prod.mk.injEq] at h
    obtain ⟨h1, _⟩ := h
    subst h1
    simp
  | cons d ds ih =>
    intro acc es t h
    simp only [parseDefs] at h
    cases hm : matchDef d with
    | none => rw [hm] at h; cases h
    | some r =>
      obtain ⟨ty, name, cnt⟩ := r
      rw [hm] at h
      simp only at h
      cases hp : parseDefs ds (acc + countOf cnt * byteSizeOf ty) with
      | error e => rw [hp] at h; cases h
      | ok p =>
        obtain ⟨es', t'⟩ := p
        rw [hp] at h
        simp only [Except.ok.injEq, Prod.mk.injEq] at h
        obtain ⟨h1, _⟩ := h
        subst h1
        intro e he
        rcases List.mem_cons.mp he with he | he
        · subst he
          have h1 := matchDef_byteSize_pos _ _ _ _ hm
          have h2 := countOf_pos cnt
          simp only [footprint]
          exact Nat.one_le_iff_ne_zero.mpr (by positivity)
        · exact ih _ _ _ hp e he

/-- Partial sums of a list of naturals are monotone in the prefix length. -/
theorem sum_take_mono (g : List Nat) {i j : Nat} (h : i ≤ j) :
    (g.take i).sum ≤ (g.take j).sum := by
  have heq : g.take i = (g.take j).take i := by
    rw [List.take_take, Nat.min_eq_left h]
  calc (g.take i).sum = ((g.take j).take i).sum := by rw [heq]
    _ ≤ ((g.take j).take i).sum + ((g.take j).drop i).sum := Nat.le_add_right _ _
    _ = (g.take j).sum := by rw [← List.sum_append, List.take_append_drop]

theorem sumFp_take_eq (es : List (String × FieldDef)) (i : Nat) :
    sumFp (es.take i) = ((es.map fun e => footprint e.2).take i).sum := by
  simp [sumFp, List.map_take]

theorem sumFp_take_succ (es : List (String × FieldDef)) (i : Nat)
    (hi : i < es.length) :
    sumFp (es.take (i + 1)) = sumFp (es.take i) + footprint (es.get ⟨i, hi⟩).2 := by
  rw [sumFp_take_eq, sumFp_take_eq,
    List.sum_take_succ _ _ (by simpa using hi)]
  simp [List.getElem_map, List.get_eq_getElem]

/-! ### Claim theorems -/

/-- C1: for every valid descriptor sequence, `_parseDefs` assigns each entry
the running total of the footprints of the earlier entries, in declaration
order and with no padding: each offset is the partial footprint sum, the
returned `totalBytes` is the total footprint sum, consecutive entries
satisfy `offset(i) + footprint(i) = offset(i+1)`, for `i < j` we have
`offset(i) + footprint(i) ≤ offset(j)`, and the byte ranges of distinct
entries never overlap. -/
theorem C1_layout (defs : List String) (es : List (String × FieldDef)) (total : Nat)
    (h : parseDefs defs 0 = .ok (es, total)) :
    (∀ i (hi : i < es.length),
        (es.get ⟨i, hi⟩).2.offset = sumFp (es.take i)) ∧
    total = sumFp es ∧
    (∀ i (h1 : i + 1 < es.length),
        (es.get ⟨i, Nat.lt_of_succ_lt h1⟩).2.offset
            + footprint (es.get ⟨i, Nat.lt_of_succ_lt h1⟩).2
          = (es.get ⟨i + 1, h1⟩).2.offset) ∧
    (∀ i j (hi : i < es.length) (hj : j < es.length), i < j →
        (es.get ⟨i, hi⟩).2.offset + footprint (es.get ⟨i, hi⟩).2
          ≤ (es.get ⟨j, hj⟩).2.offset) ∧
    (∀ i j (hi : i < es.length) (hj : j < es.length), i ≠ j → ∀ k,
        ¬((es.get ⟨i, hi⟩).2.offset ≤ k ∧
            k < (es.get ⟨i, hi⟩).2.offset + footprint (es.get ⟨i, hi⟩).2 ∧
          (es.get ⟨j, hj⟩).2.offset ≤ k ∧
            k < (es.get ⟨j, hj⟩).2.offset + footprint (es.get ⟨j, hj⟩).2)) := by
  obtain ⟨htot, hoff⟩ := parseDefs_spec defs 0 es total h
  simp only [Nat.zero_add] at htot hoff
  have hoffs : ∀ i (hi : i < es.length),
      (es.get ⟨i, hi⟩).2.offset = sumFp (es.take i) := hoff
  have hmono : ∀ i j (hi : i < es.length) (hj : j < es.length), i < j →
      (es.get ⟨i, hi⟩).2.offset + footprint (es.get ⟨i, hi⟩).2
        ≤ (es.get ⟨j, hj⟩).2.offset := by
    intro i j hi hj hij
    rw [hoffs i hi, hoffs j hj, ← sumFp_take_succ es i hi,
      sumFp_take_eq, sumFp_take_eq]
    exact sum_take_mono _ (by omega)
  refine ⟨hoffs, htot, ?_, hmono, ?_⟩
  · intro i h1
    have hi := Nat.lt_of_succ_lt h1
    rw [hoffs i hi, hoffs (i + 1) h1, sumFp_take_succ es i hi]
  · intro i j hi hj hne k hk
    obtain ⟨hk1, hk2, hk3, hk4⟩ := hk
    have hfi : 1 ≤ footprint (es.get ⟨i, hi⟩).2 :=
      parseDefs_footprint_pos defs 0 es total h _ (es.get_mem i hi)
    have hfj : 1 ≤ footprint (es.get ⟨j, hj⟩).2 :=
      parseDefs_footprint_pos defs 0 es total h _ (es.get_mem j hj)
    rcases Nat.lt_or_ge i j with hij | hij
    · have := hmono i j hi hj hij
      omega
    · have hij' : j < i := by omega
      have := hmono j i hj hi hij'
      omega

/-! ### Cstring lemmas -/

/-- Effect of the content-writing loop on each cell: the written window
holds the content bytes (reduced mod 256), everything else is untouched. -/
theorem writeBytes_data (cs : List Nat) :
    ∀ (b : ArrayBuffer) (off j : Nat),
      (writeBytes b off cs).data j =
        if off ≤ j ∧ j < off + cs.length then cs.getD (j - off) 0 % 256
        else b.data j := by
  induction cs with
  | nil =>
    intro b off j
    have hcond : ¬(off ≤ j ∧ j < off + ([] : List Nat).length) := by
      simp only [List.length_nil]
      omega
    rw [writeBytes, if_neg hcond]
  | cons c cs ih =>
    intro b off j
    rw [writeBytes, ih]
    by_cases h1 : off + 1 ≤ j ∧ j < off + 1 + cs.length
    · have hcond : off ≤ j ∧ j < off + (c :: cs).length := by
        simp only [List.length_cons]
        omega
      rw [if_pos h1, if_pos hcond]
      have hj : j - off = (j - (off + 1)) + 1 := by omega
      rw [hj]
      simp
    · rw [if_neg h1]
      by_cases h2 : j = off
      · subst h2
        have hcond : j ≤ j ∧ j < j + (c :: cs).length := by
          simp only [List.length_cons]
          omega
        rw [setUint8_data_self, if_pos hcond]
        simp
      · have hcond : ¬(off ≤ j ∧ j < off + (c :: cs).length) := by
          simp only [List.length_cons]
          omega
        rw [setUint8_data_ne _ _ _ _ h2, if_neg hcond]

/-- The cstring getter returns the longest zero-free prefix of the field's
bytes: it reads at most `L` bytes from `offset` and stops, exclusively, at
the first zero byte. -/
theorem cstringGet_eq (b : ArrayBuffer) :
    ∀ (L offset : Nat),
      cstringGet b offset L =
        ((List.range L).map fun i => b.getUint8 (offset + i)).takeWhile
          (fun c => c != 0) := by
  intro L
  induction L with
  | zero => intro offset; simp [cstringGet]
  | succ n ih =>
    intro offset
    rw [List.range_succ_eq_map]
    simp only [List.map_cons, List.map_map, Nat.add_zero, List.takeWhile_cons]
    have harg : ((fun i => b.getUint8 (offset + i)) ∘ Nat.succ)
        = fun i => b.getUint8 (offset + 1 + i) := by
      funext i
      simp only [Function.comp]
      congr 1
      omega
    rw [harg, ← ih (offset + 1)]
    by_cases hc : b.getUint8 offset = 0
    · simp [cstringGet, hc]
    · simp [cstringGet, hc]

/-- The cstring getter depends only on the `L` bytes of the field's window
`offset .. offset + L - 1`: it never reads past `offset + L - 1`. -/
theorem cstringGet_congr (b b2 : ArrayBuffer) :
    ∀ (L offset : Nat),
      (∀ i, i < L → b2.data (offset + i) = b.data (offset + i)) →
      cstringGet b2 offset L = cstringGet b offset L := by
  intro L
  induction L with
  | zero => intro offset _; rfl
  | succ n ih =>
    intro offset h
    have h0 : b2.getUint8 offset = b.getUint8 offset := by
      have := h 0 (by omega)
      simp only [Nat.add_zero] at this
      simp [ArrayBuffer.getUint8, this]
    rw [cstringGet, cstringGet, h0]
    split
    · rfl
    · rw [ih (offset + 1) fun i hi => by
        have h2 := h (i + 1) (by omega)
        have heq : offset + 1 + i = offset + (i + 1) := by omega
        rw [heq]
        exact h2]

/-- C2: for every integer field of width 8, 16 or 32 bits, every value
representable in that width and either endianness setting of the record,
`set(name, v)` followed by `get(name)` returns `v`. -/
theorem C2_int_roundtrip (s : Struct) (name : String) (d : FieldDef) (v w : Nat)
    (hd : lookupLast s.defMap name = some d)
    (hw : (d.type = "uint8" ∧ w = 8) ∨ (d.type = "uint16" ∧ w = 16) ∨
      (d.type = "uint32" ∧ w = 32))
    (hv : v < 2 ^ w) :
    (s.set name (.num v)).bind (fun s2 => s2.get name) = .ok (.num v) := by
  rcases hw with ⟨ht, hw⟩ | ⟨ht, hw⟩ | ⟨ht, hw⟩ <;> subst hw
  · have hv' : v < 256 := by simpa using hv
    simp [Struct.set, Struct.get, Struct.getDefByName, hd, ht, Value.toNumArg,
      Except.bind, ArrayBuffer.getUint8, ArrayBuffer.setUint8,
      Nat.mod_eq_of_lt hv']
  · have hv' : v < 65536 := by simpa using hv
    simp [Struct.set, Struct.get, Struct.getDefByName, hd, ht, Value.toNumArg,
      Except.bind, getUint16_setUint16 _ _ _ _ hv']
  · have hv' : v < 4294967296 := by simpa using hv
    simp [Struct.set, Struct.get, Struct.getDefByName, hd, ht, Value.toNumArg,
      Except.bind, getUint32_setUint32 _ _ _ _ hv']

/-- C3: `set` on a cstring field of capacity `c` writes exactly
`min(|s|, c-1)` character codes from the field's offset, then one zero byte
right after them (so a too-long input is truncated and, when
`c - 1 ≤ |s|`, the byte at `offset + c - 1` is the terminator), and it
leaves every byte outside `offset .. offset + min(|s|, c-1)` unchanged: no
zero-fill of the remaining capacity, stale bytes persist. -/
theorem C3_cstring_set (s : Struct) (name : String) (d : FieldDef) (value : List Nat)
    (hd : lookupLast s.defMap name = some d) (ht : d.type = "cstring") :
    s.set name (.str value) =
      .ok { s with buffer := cstringSet s.buffer value d.offset d.length } ∧
    (∀ i, i < min value.length (d.length - 1) →
      (cstringSet s.buffer value d.offset d.length).data (d.offset + i)
        = value.getD i 0 % 256) ∧
    (cstringSet s.buffer value d.offset d.length).data
        (d.offset + min value.length (d.length - 1)) = 0 ∧
    (∀ j, j < d.offset ∨ d.offset + min value.length (d.length - 1) < j →
      (cstringSet s.buffer value d.offset d.length).data j = s.buffer.data j) ∧
    (d.length - 1 ≤ value.length →
      (cstringSet s.buffer value d.offset d.length).data (d.offset + (d.length - 1))
        = 0) := by
  have hn : (value.take (min value.length (d.length - 1))).length
      = min value.length (d.length - 1) := by
    simp [List.length_take]
  refine ⟨?_, ?_, ?_, ?_, ?_⟩
  · simp [Struct.set, Struct.getDefByName, hd, ht, Value.strData]
  · intro i hi
    rw [cstringSet]
    rw [setUint8_data_ne _ _ _ _ (by omega)]
    rw [writeBytes_data, if_pos (by rw [hn]; omega)]
    have hi' : d.offset + i - d.offset = i := by omega
    rw [hi']
    have : (value.take (min value.length (d.length - 1))).getD i 0
        = value.getD i 0 := by
      simp only [List.getD_eq_getElem?_getD]
      rw [List.getElem?_take_of_lt hi]
    rw [this]
  · rw [cstringSet]
    simp [setUint8_data_self]
  · intro j hj
    rw [cstringSet]
    rw [setUint8_data_ne _ _ _ _ (by omega)]
    rw [writeBytes_data, if_neg (by rw [hn]; omega)]
  · intro hlen
    have hmin : min value.length (d.length - 1) = d.length - 1 :=
      Nat.min_eq_right hlen
    rw [cstringSet]
    simp [hmin, setUint8_data_self]

/-- C4: `get` on a cstring field of capacity `L` returns the bytes of the
field's window up to, and excluding, the first zero byte — all `L` bytes
when no zero occurs — and its result depends only on the bytes at
`offset .. offset + L - 1`: it never reads past `offset + L - 1`. -/
theorem C4_cstring_get (s : Struct) (name : String) (d : FieldDef)
    (hd : lookupLast s.defMap name = some d) (ht : d.type = "cstring") :
    s.get name = .ok (.str
      (((List.range d.length).map fun i => s.buffer.getUint8 (d.offset + i)).takeWhile
        (fun c => c != 0))) ∧
    ∀ b2 : ArrayBuffer,
      (∀ i, i < d.length → b2.data (d.offset + i) = s.buffer.data (d.offset + i)) →
      cstringGet b2 d.offset d.length = cstringGet s.buffer d.offset d.length := by
  constructor
  · simp [Struct.get, Struct.getDefByName, hd, ht, cstringGet_eq]
  · intro b2 h
    exact cstringGet_congr s.buffer b2 d.length d.offset h

/-- C5: the single endianness flag governs the byte order of every
multi-byte integer write: storing `0x01020304` in a uint32 field leaves the
bytes `[4, 3, 2, 1]` at the field's offset in little-endian mode and
`[1, 2, 3, 4]` in big-endian mode (similarly `0x0102` for uint16); the flag
defaults to big-endian (`false`) when unspecified at construction. -/
theorem C5_endianness (s : Struct) (name : String) (d : FieldDef)
    (hd : lookupLast s.defMap name = some d) :
    (d.type = "uint32" →
      (s.set name (.num 16909060)).map (fun s2 =>
        [s2.buffer.getUint8 d.offset, s2.buffer.getUint8 (d.offset + 1),
         s2.buffer.getUint8 (d.offset + 2), s2.buffer.getUint8 (d.offset + 3)])
        = .ok (if s.littleEndian then [4, 3, 2, 1] else [1, 2, 3, 4])) ∧
    (d.type = "uint16" →
      (s.set name (.num 258)).map (fun s2 =>
        [s2.buffer.getUint8 d.offset, s2.buffer.getUint8 (d.offset + 1)])
        = .ok (if s.littleEndian then [2, 1] else [1, 2])) ∧
    (∀ (ds : List String) (b : Option ArrayBuffer) (st : Struct),
      Struct.make ds b none = .ok st → st.littleEndian = false) := by
  refine ⟨?_, ?_, ?_⟩
  · intro ht
    cases hle : s.littleEndian <;>
      simp [Struct.set, Struct.getDefByName, hd, ht, Value.toNumArg, Except.map,
        hle, ArrayBuffer.setUint32, ArrayBuffer.getUint8, ArrayBuffer.setUint8]
  · intro ht
    cases hle : s.littleEndian <;>
      simp [Struct.set, Struct.getDefByName, hd, ht, Value.toNumArg, Except.map,
        hle, ArrayBuffer.setUint16, ArrayBuffer.getUint8, ArrayBuffer.setUint8]
  · intro ds b st h
    unfold Struct.make at h
    cases hp : parseDefs ds 0 with
    | error e => rw [hp] at h; cases h
    | ok p =>
      obtain ⟨es, t⟩ := p
      rw [hp] at h
      simp only [Except.ok.injEq] at h
      rw [← h]
      rfl

/-- Helper for C6: a descriptor list containing a string rejected by the
grammar makes `_parseDefs` abort, for every accumulator, with the error
identifying the first such offending string. -/
theorem parseDefs_has_error (defs : List String) (bad : String)
    (hmem : bad ∈ defs) (hbad : matchDef bad = none) :
    ∃ d2, d2 ∈ defs ∧ matchDef d2 = none ∧
      ∀ acc, parseDefs defs acc = .error ("Invalid Struct Definition: " ++ d2) := by
  induction defs with
  | nil => cases hmem
  | cons d ds ih =>
    cases hm : matchDef d with
    | none =>
      exact ⟨d, List.mem_cons_self d ds, hm, fun acc => by simp [parseDefs, hm]⟩
    | some r =>
      have hne : bad ≠ d := by
        intro h
        rw [h, hm] at hbad
        cases hbad
      have hmem' : bad ∈ ds := by
        rcases List.mem_cons.mp hmem with h | h
        · exact absurd h hne
        · exact h
      obtain ⟨d2, hd2, hbad2, herr⟩ := ih hmem'
      refine ⟨d2, List.mem_cons_of_mem _ hd2, hbad2, fun acc => ?_⟩
      obtain ⟨ty, nm, cnt⟩ := r
      simp [parseDefs, hm, herr]

/-- C6: a descriptor sequence containing a string that does not match
`<type> <name>[optional bracketed count]` makes construction fail with the
error identifying the offending string; no record instance or partial
layout is produced. -/
theorem C6_malformed (defs : List String) (bad : String)
    (hmem : bad ∈ defs) (hbad : matchDef bad = none) :
    ∃ d2, d2 ∈ defs ∧ matchDef d2 = none ∧
      ∀ (buf : Option ArrayBuffer) (le : Option Bool),
        Struct.make defs buf le = .error ("Invalid Struct Definition: " ++ d2) := by
  obtain ⟨d2, hd2, hbad2, herr⟩ := parseDefs_has_error defs bad hmem hbad
  exact ⟨d2, hd2, hbad2, fun buf le => by simp [Struct.make, herr 0]⟩

/-- C7: `get` and `set` on a field name absent from the compiled layout both
fail with the error naming the field (the source throws
`name + 'does not defined'`), before anything is written: in this
state-passing model a failing `set` returns no new record state, so the
backing buffer is unchanged. -/
theorem C7_unknown_field (s : Struct) (name : String)
    (h : lookupLast s.defMap name = none) :
    s.get name = .error (name ++ "does not defined") ∧
    ∀ v, s.set name v = .error (name ++ "does not defined") := by
  constructor
  · simp [Struct.get, Struct.getDefByName, h]
  · intro v
    simp [Struct.set, Struct.getDefByName, h]

/-- C10: a descriptor whose explicit bracketed count parses to zero compiles
successfully with the count treated as `1` — the entry occupies one
element's byte size and contributes exactly that footprint to the total. -/
theorem C10_zero_count (d ty nm : String) (ds : List Char)
    (h : matchDef d = some (ty, nm, some ds)) (h0 : digitsToNat ds = 0) (acc : Nat) :
    parseDefs [d] acc = .ok ([(nm, { type := ty, offset := acc, length := 1 })],
      acc + byteSizeOf ty) := by
  simp [parseDefs, h, countOf, jsOr1, h0]

/-- C8 (amended): `getLength` reads the byte length of the backing buffer.
With no supplied buffer a fresh buffer of exactly `totalBytes` is allocated,
so `getLength` equals the compiled total; with a caller-supplied buffer it
returns that buffer's length, which is never validated against
`totalBytes`. -/
theorem C8_getLength_amended :
    (∀ (defs : List String) (le : Option Bool) (st : Struct),
      Struct.make defs none le = .ok st →
      ∃ es, parseDefs defs 0 = .ok (es, st.getLength)) ∧
    (∀ (defs : List String) (b : ArrayBuffer) (le : Option Bool) (st : Struct),
      Struct.make defs (some b) le = .ok st → st.getLength = b.byteLength) := by
  constructor
  · intro defs le st h
    unfold Struct.make at h
    cases hp : parseDefs defs 0 with
    | error e => rw [hp] at h; cases h
    | ok p =>
      obtain ⟨es, t⟩ := p
      rw [hp] at h
      simp only [Except.ok.injEq] at h
      refine ⟨es, ?_⟩
      rw [← h]
      rfl
  · intro defs b le st h
    unfold Struct.make at h
    cases hp : parseDefs defs 0 with
    | error e => rw [hp] at h; cases h
    | ok p =>
      obtain ⟨es, t⟩ := p
      rw [hp] at h
      simp only [Except.ok.injEq] at h
      rw [← h]
      rfl

/-- C8 (counterexample): with a caller-supplied 5-byte buffer on a layout
whose `totalBytes` is 1, `getLength()` returns 5, not the compiled
`totalBytes`. -/
theorem C8_getLength_cex :
    (Struct.make ["uint8 a"] (some (ArrayBuffer.new 5)) none).map Struct.getLength
      = .ok 5 ∧
    (parseDefs ["uint8 a"] 0).map (fun p => p.2) = .ok 1 ∧
    (5 : Nat) ≠ 1 :=
  ⟨rfl, rfl, by decide⟩

/-! ### Spec-side rendering definitions (for the refinement in C9) -/

/-- Spec side: concatenation of a list of rendered pieces, in order. -/
def specConcat : List String → String
  | [] => ""
  | s :: rest => s ++ specConcat rest

/-- Spec side: one byte as exactly 2 zero-padded lowercase hex digits. -/
def specByteHex (v : Nat) : String :=
  String.mk [Nat.digitChar (v / 16), Nat.digitChar (v % 16)]

/-- Spec side: one byte as exactly 8 zero-padded binary digits, most
significant bit first. -/
def specByteBinary (v : Nat) : String :=
  String.mk ((List.range 8).map fun k => if v / 2 ^ (7 - k) % 2 = 1 then '1' else '0')

set_option maxRecDepth 4000 in
theorem padZero_hex : ∀ v : Nat, v < 256 →
    padZero (natToDigits 16 v) 2 = specByteHex v := by decide

set_option maxRecDepth 4000 in
theorem padZero_binary : ∀ v : Nat, v < 256 →
    padZero (natToDigits 2 v) 8 = specByteBinary v := by decide

theorem foldl_append_eq (f : Nat → String) (l : List Nat) :
    ∀ acc : String, l.foldl (fun str v => str ++ f v) acc
      = acc ++ specConcat (l.map f) := by
  induction l with
  | nil => intro acc; simp [specConcat]
  | cons c cs ih =>
    intro acc
    simp [specConcat, ih, String.append_assoc]

theorem byteValues_lt (s : Struct) : ∀ v ∈ s.byteValues, v < 256 := by
  intro v hv
  simp only [Struct.byteValues, List.mem_map, List.mem_range] at hv
  obtain ⟨i, _, rfl⟩ := hv
  exact getUint8_lt _ _

theorem hexString_eq (s : Struct) :
    s.hexString = specConcat (s.byteValues.map specByteHex) := by
  rw [Struct.hexString, foldl_append_eq]
  rw [List.map_congr_left fun v hv => padZero_hex v (byteValues_lt s v hv)]
  simp

theorem binaryString_eq (s : Struct) :
    s.binaryString = specConcat (s.byteValues.map specByteBinary) := by
  rw [Struct.binaryString, foldl_append_eq]
  rw [List.map_congr_left fun v hv => padZero_binary v (byteValues_lt s v hv)]
  simp

/-- C9 (amended): `toString` renders, in byte order over the backing
buffer, each byte as exactly 2 zero-padded hex digits in hex mode and
exactly 8 zero-padded binary digits in binary mode; every JS-truthy mode
other than `hex` and `binary` fails, while a falsy mode (absent argument or
empty string) falls back to hex rendering instead of failing. -/
theorem C9_render_amended (s : Struct) :
    s.toString none = .ok s.hexString ∧
    s.toString (some "") = .ok s.hexString ∧
    s.toString (some "hex") = .ok (specConcat (s.byteValues.map specByteHex)) ∧
    s.toString (some "binary") = .ok (specConcat (s.byteValues.map specByteBinary)) ∧
    (∀ mode : String, mode ≠ "hex" → mode ≠ "binary" → mode ≠ "" →
      s.toString (some mode)
        = .error ("Struct._toStringMap[" ++ mode ++ "] is not a function")) := by
  refine ⟨rfl, rfl, ?_, ?_, ?_⟩
  · rw [← hexString_eq]
    rfl
  · rw [← binaryString_eq]
    rfl
  · intro mode h1 h2 h3
    simp [Struct.toString, h1, h2, h3]

/-- C9 (counterexample): the empty string is a mode other than `hex` and
`binary`, yet `toString("")` succeeds (it falls back to hex rendering)
rather than failing with an unknown-render-mode error. -/
theorem C9_render_cex :
    ((Struct.make ["uint8 a"] none none).bind fun st => st.toString (some ""))
      = .ok "00" ∧
    ("" : String) ≠ "hex" ∧ ("" : String) ≠ "binary" :=
  ⟨rfl, by decide, by decide⟩

/-! ### Concrete records for the witnesses -/

/-- The descriptor sequence of the source's own usage example. -/
def demoDefs : List String :=
  ["uint16 packetId", "uint32 statusCode", "cstring method[11]",
   "uint8 bodyType", "uint32 bodyLength"]

/-- The layout the example compiles to (totalBytes = 22). -/
def demoEntries : List (String × FieldDef) :=
  [("packetId", ⟨"uint16", 0, 1⟩), ("statusCode", ⟨"uint32", 2, 1⟩),
   ("method", ⟨"cstring", 6, 11⟩), ("bodyType", ⟨"uint8", 17, 1⟩),
   ("bodyLength", ⟨"uint32", 18, 1⟩)]

def demoS8 : Struct := ⟨[("b", ⟨"uint8", 0, 1⟩)], ArrayBuffer.new 1, false⟩

def demoS16le : Struct := ⟨[("a", ⟨"uint16", 0, 1⟩)], ArrayBuffer.new 2, true⟩

def demoS16be : Struct := ⟨[("a", ⟨"uint16", 0, 1⟩)], ArrayBuffer.new 2, false⟩

def demoS32le : Struct := ⟨[("x", ⟨"uint32", 0, 1⟩)], ArrayBuffer.new 4, true⟩

def demoS32be : Struct := ⟨[("x", ⟨"uint32", 0, 1⟩)], ArrayBuffer.new 4, false⟩

def demoCstr : Struct := ⟨[("m", ⟨"cstring", 0, 11⟩)], ArrayBuffer.new 11, false⟩

/-- An 11-byte buffer holding the bytes of `"buy"` and a terminator. -/
def demoBuy : ArrayBuffer :=
  ⟨11, fun i => if i = 0 then 98 else if i = 1 then 117 else if i = 2 then 121 else 0⟩

def demoCstrBuy : Struct := ⟨[("m", ⟨"cstring", 0, 11⟩)], demoBuy, false⟩

/-! ### Witnesses -/

/-- C1 witness: the example descriptors compile to the expected entries with
`totalBytes = 22 = sumFp`, and the third entry's offset is the footprint sum
of the two entries before it. -/
theorem C1_layout_witness :
    parseDefs demoDefs 0 = .ok (demoEntries, 22) ∧
    sumFp demoEntries = 22 ∧
    (demoEntries.get ⟨2, by decide⟩).2.offset = sumFp (demoEntries.take 2) := by
  have h : parseDefs demoDefs 0 = .ok (demoEntries, 22) := rfl
  obtain ⟨hoff, htot, _⟩ := C1_layout demoDefs demoEntries 22 h
  exact ⟨h, htot.symm, hoff 2 (by decide)⟩

/-- C2 witness: concrete round trips through all three widths, in both
endianness settings for the 16-bit case. -/
theorem C2_int_roundtrip_witness :
    (demoS16le.set "a" (.num 48879)).bind (fun s2 => s2.get "a") = .ok (.num 48879) ∧
    (demoS16be.set "a" (.num 48879)).bind (fun s2 => s2.get "a") = .ok (.num 48879) ∧
    (demoS8.set "b" (.num 255)).bind (fun s2 => s2.get "b") = .ok (.num 255) ∧
    (demoS32be.set "x" (.num 3735928559)).bind (fun s2 => s2.get "x")
      = .ok (.num 3735928559) := by
  refine ⟨?_, ?_, ?_, ?_⟩
  · exact C2_int_roundtrip demoS16le "a" ⟨"uint16", 0, 1⟩ 48879 16 rfl
      (.inr (.inl ⟨rfl, rfl⟩)) (by norm_num)
  · exact C2_int_roundtrip demoS16be "a" ⟨"uint16", 0, 1⟩ 48879 16 rfl
      (.inr (.inl ⟨rfl, rfl⟩)) (by norm_num)
  · exact C2_int_roundtrip demoS8 "b" ⟨"uint8", 0, 1⟩ 255 8 rfl
      (.inl ⟨rfl, rfl⟩) (by norm_num)
  · exact C2_int_roundtrip demoS32be "x" ⟨"uint32", 0, 1⟩ 3735928559 32 rfl
      (.inr (.inr ⟨rfl, rfl⟩)) (by norm_num)

/-- C3 witness: `set("supercalifragilistic")` on an 11-byte cstring field
writes min(20, 10) = 10 content bytes and the terminator lands at
offset + 10 = offset + capacity - 1. -/
theorem C3_cstring_set_witness :
    demoCstr.set "m" (.str (strCodes "supercalifragilistic")) =
      .ok { demoCstr with
        buffer := cstringSet demoCstr.buffer (strCodes "supercalifragilistic") 0 11 } ∧
    (cstringSet demoCstr.buffer (strCodes "supercalifragilistic") 0 11).data
        (0 + min (strCodes "supercalifragilistic").length (11 - 1)) = 0 ∧
    (11 - 1 : Nat) ≤ (strCodes "supercalifragilistic").length ∧
    (cstringSet demoCstr.buffer (strCodes "supercalifragilistic") 0 11).data
        (0 + (11 - 1)) = 0 := by
  have h := C3_cstring_set demoCstr "m" ⟨"cstring", 0, 11⟩
    (strCodes "supercalifragilistic") rfl rfl
  exact ⟨h.1, h.2.2.1, by decide, h.2.2.2.2 (by decide)⟩

/-- C4 witness: reading the cstring field of a buffer holding `"buy"` and a
terminator returns exactly the bytes before the first zero, i.e. `"buy"`. -/
theorem C4_cstring_get_witness :
    demoCstrBuy.get "m" = .ok (.str
      (((List.range 11).map fun i => demoBuy.getUint8 (0 + i)).takeWhile
        (fun c => c != 0))) ∧
    (((List.range 11).map fun i => demoBuy.getUint8 (0 + i)).takeWhile
        (fun c => c != 0)) = strCodes "buy" := by
  have h := C4_cstring_get demoCstrBuy "m" ⟨"cstring", 0, 11⟩ rfl rfl
  exact ⟨h.1, by decide⟩

/-- C5 witness: storing 0x01020304 leaves bytes [4,3,2,1] under the
little-endian flag and [1,2,3,4] under the big-endian default, and an
unspecified flag is big-endian. -/
theorem C5_endianness_witness :
    (demoS32le.set "x" (.num 16909060)).map (fun s2 =>
      [s2.buffer.getUint8 0, s2.buffer.getUint8 (0 + 1),
       s2.buffer.getUint8 (0 + 2), s2.buffer.getUint8 (0 + 3)]) = .ok [4, 3, 2, 1] ∧
    (demoS32be.set "x" (.num 16909060)).map (fun s2 =>
      [s2.buffer.getUint8 0, s2.buffer.getUint8 (0 + 1),
       s2.buffer.getUint8 (0 + 2), s2.buffer.getUint8 (0 + 3)]) = .ok [1, 2, 3, 4] ∧
    (Struct.make ["uint8 a"] none none).map (fun st => st.littleEndian)
      = .ok false := by
  refine ⟨?_, ?_, ?_⟩
  · have h := (C5_endianness demoS32le "x" ⟨"uint32", 0, 1⟩ rfl).1 rfl
    simpa [demoS32le] using h
  · have h := (C5_endianness demoS32be "x" ⟨"uint32", 0, 1⟩ rfl).1 rfl
    simpa [demoS32be] using h
  · have hmk : Struct.make ["uint8 a"] none none
        = .ok ⟨[("a", ⟨"uint8", 0, 1⟩)], ArrayBuffer.new 1, false⟩ := rfl
    have h := (C5_endianness demoS32le "x" ⟨"uint32", 0, 1⟩ rfl).2.2
      ["uint8 a"] none _ hmk
    simp [hmk, Except.map, h]

/-- C6 witness: the spec's example `"int24 weird"` is rejected by the
grammar and construction fails with the error naming it. -/
theorem C6_malformed_witness :
    matchDef "int24 weird" = none ∧
    Struct.make ["int24 weird"] none none
      = .error ("Invalid Struct Definition: " ++ "int24 weird") := by
  have hbad : matchDef "int24 weird" = none := by decide
  obtain ⟨d2, hd2, _, herr⟩ :=
    C6_malformed ["int24 weird"] "int24 weird" (List.mem_singleton_self _) hbad
  have hd2' : d2 = "int24 weird" := List.mem_singleton.mp hd2
  subst hd2'
  exact ⟨hbad, herr none none⟩

/-- C7 witness: both accessors on `"nonexistent"` fail with the error
naming the field. -/
theorem C7_unknown_field_witness :
    demoS8.get "nonexistent" = .error ("nonexistent" ++ "does not defined") ∧
    demoS8.set "nonexistent" (.num 7) = .error ("nonexistent" ++ "does not defined") := by
  have h := C7_unknown_field demoS8 "nonexistent" rfl
  exact ⟨h.1, h.2 (.num 7)⟩

/-- C8 witness: a fresh record of layout total 1 reports length 1, and the
same layout over a supplied 5-byte buffer reports 5. -/
theorem C8_getLength_witness :
    (Struct.make ["uint8 a"] none none).map Struct.getLength = .ok 1 ∧
    (Struct.make ["uint8 a"] (some (ArrayBuffer.new 5)) none).map Struct.getLength
      = .ok 5 := by
  constructor
  · have hmk : Struct.make ["uint8 a"] none none
        = .ok ⟨[("a", ⟨"uint8", 0, 1⟩)], ArrayBuffer.new 1, false⟩ := rfl
    obtain ⟨es, hes⟩ := C8_getLength_amended.1 ["uint8 a"] none _ hmk
    have h0 : parseDefs ["uint8 a"] 0 = .ok ([("a", ⟨"uint8", 0, 1⟩)], 1) := rfl
    rw [h0] at hes
    simp only [Except.ok.injEq, Prod.mk.injEq] at hes
    obtain ⟨-, h2⟩ := hes
    simp [hmk, Except.map, ← h2]
  · have hmk : Struct.make ["uint8 a"] (some (ArrayBuffer.new 5)) none
        = .ok ⟨[("a", ⟨"uint8", 0, 1⟩)], ArrayBuffer.new 5, false⟩ := rfl
    have h2 := C8_getLength_amended.2 ["uint8 a"] (ArrayBuffer.new 5) none _ hmk
    calc (Struct.make ["uint8 a"] (some (ArrayBuffer.new 5)) none).map Struct.getLength
        = .ok (Struct.getLength ⟨[("a", ⟨"uint8", 0, 1⟩)], ArrayBuffer.new 5, false⟩) := by
          rw [hmk]
          rfl
      _ = .ok (ArrayBuffer.new 5).byteLength := by rw [h2]
      _ = .ok 5 := rfl

/-- C9 witness: a one-byte record holding 255 renders `"ff"` in hex mode
and `"11111111"` in binary mode, and a truthy unknown mode fails. -/
theorem C9_render_witness :
    ((Struct.make ["uint8 bodyType"] none none).bind fun st =>
      (st.set "bodyType" (.num 255)).bind fun s2 => s2.toString (some "hex"))
      = .ok "ff" ∧
    ((Struct.make ["uint8 bodyType"] none none).bind fun st =>
      (st.set "bodyType" (.num 255)).bind fun s2 => s2.toString (some "binary"))
      = .ok "11111111" ∧
    demoS8.toString (some "bogus")
      = .error ("Struct._toStringMap[" ++ "bogus" ++ "] is not a function") := by
  refine ⟨?_, ?_, ?_⟩
  · show Struct.toString
      ⟨[("bodyType", ⟨"uint8", 0, 1⟩)], (ArrayBuffer.new 1).setUint8 0 255, false⟩
      (some "hex") = .ok "ff"
    rw [(C9_render_amended _).2.2.1]
    rfl
  · show Struct.toString
      ⟨[("bodyType", ⟨"uint8", 0, 1⟩)], (ArrayBuffer.new 1).setUint8 0 255, false⟩
      (some "binary") = .ok "11111111"
    rw [(C9_render_amended _).2.2.2.1]
    rfl
  · exact (C9_render_amended demoS8).2.2.2.2 "bogus" (by decide) (by decide) (by decide)

/-- C10 witness: `"uint8 x[0]"` matches the grammar with count digits `0`
and compiles to a one-byte entry of length 1. -/
theorem C10_zero_count_witness :
    matchDef "uint8 x[0]" = some ("uint8", "x", some ['0']) ∧
    parseDefs ["uint8 x[0]"] 0
      = .ok ([("x", { type := "uint8", offset := 0, length := 1 })], 1) := by
  refine ⟨by decide, ?_⟩
  exact C10_zero_count "uint8 x[0]" "uint8" "x" ['0'] rfl rfl 0

end StructJs
